import Mathlib

/-!
Verification development for the FetchBrain SDK concurrency-coordination layer:
a shallow embedding, in Lean 4, of the circuit breaker (`circuit-breaker.ts`),
the request batcher (`batch.ts`), the knowledge client (`client.ts`) and the
handler wrapper with its data-sink interception (`index.ts` / `enhance`).

Wall-clock time (`Date.now()`) is passed explicitly as a `Nat` parameter;
asynchronous executor and backend calls are passed as explicit outcomes
(`Except`), and the side effects of one request (executor invocations,
promise settlements, data-sink pushes, teach calls) are returned as values.
-/

/-! ## Circuit breaker (src: circuit-breaker.ts) -/

/-- The three circuit states: `'closed' | 'open' | 'half-open'`. -/
inductive CBState where
  | closed
  | opened
  | halfOpen
deriving DecidableEq, Repr

/-- Configuration of the circuit breaker (`CircuitBreakerConfig`). -/
structure CircuitBreakerConfig where
  failureThreshold : Nat
  resetTimeout : Nat
  successThreshold : Nat
deriving DecidableEq, Repr

/-- Default config: `failureThreshold: 3, resetTimeout: 30000, successThreshold: 1`. -/
def defaultCircuitConfig : CircuitBreakerConfig :=
  { failureThreshold := 3, resetTimeout := 30000, successThreshold := 1 }

/-- The mutable fields of class `CircuitBreaker`. -/
structure CircuitBreaker where
  state : CBState
  failures : Nat
  successes : Nat
  lastFailureTime : Nat
  config : CircuitBreakerConfig
deriving DecidableEq, Repr

/-- A freshly constructed breaker: `state = 'closed'`, all counters zero. -/
def mkCircuitBreaker (cfg : CircuitBreakerConfig) : CircuitBreaker :=
  { state := CBState.closed, failures := 0, successes := 0,
    lastFailureTime := 0, config := cfg }

/-- `reset()`: closed state, all counters and the timestamp zeroed. -/
def CircuitBreaker.reset (cb : CircuitBreaker) : CircuitBreaker :=
  { cb with state := CBState.closed, failures := 0, successes := 0,
            lastFailureTime := 0 }

/-- `isOpen()`: side-effecting check.  In `closed` it returns false; in `open`
it transitions to `half-open` (zeroing `successes`) and returns false once
`now - lastFailureTime >= resetTimeout`, else returns true; in `half-open` it
returns false.  The comparison is done over `Int`, as in JS arithmetic. -/
def CircuitBreaker.isOpen (cb : CircuitBreaker) (now : Nat) : Bool × CircuitBreaker :=
  match cb.state with
  | CBState.closed => (false, cb)
  | CBState.opened =>
      if (now : Int) - (cb.lastFailureTime : Int) ≥ (cb.config.resetTimeout : Int) then
        (false, { cb with state := CBState.halfOpen, successes := 0 })
      else
        (true, cb)
  | CBState.halfOpen => (false, cb)

/-- `recordSuccess()`: in `half-open`, increment `successes` and `reset()` at
`successThreshold`; in `closed`, zero the failure count; in `open`, no-op. -/
def CircuitBreaker.recordSuccess (cb : CircuitBreaker) : CircuitBreaker :=
  match cb.state with
  | CBState.halfOpen =>
      if cb.successes + 1 ≥ cb.config.successThreshold then
        CircuitBreaker.reset { cb with successes := cb.successes + 1 }
      else
        { cb with successes := cb.successes + 1 }
  | CBState.closed => { cb with failures := 0 }
  | CBState.opened => cb

/-- `recordFailure()`: always increments `failures` and stamps
`lastFailureTime = now`; from `half-open` it goes straight back to `open`;
otherwise it opens the circuit once `failures >= failureThreshold`. -/
def CircuitBreaker.recordFailure (cb : CircuitBreaker) (now : Nat) : CircuitBreaker :=
  if cb.state = CBState.halfOpen then
    { cb with failures := cb.failures + 1, lastFailureTime := now,
              state := CBState.opened }
  else if cb.failures + 1 ≥ cb.config.failureThreshold then
    { cb with failures := cb.failures + 1, lastFailureTime := now,
              state := CBState.opened }
  else
    { cb with failures := cb.failures + 1, lastFailureTime := now }

/-- A sequence of `recordFailure()` calls at the given times. -/
def failSeq (cb : CircuitBreaker) (ts : List Nat) : CircuitBreaker :=
  ts.foldl CircuitBreaker.recordFailure cb

/-- One externally visible event applied to the breaker. -/
inductive CBEvent where
  | success
  | failure (now : Nat)
  | checkOpen (now : Nat)
  | resetCall
deriving DecidableEq, Repr

/-- Apply one event to the breaker (the result of `isOpen` is discarded,
only its state transition kept). -/
def CircuitBreaker.step (cb : CircuitBreaker) (e : CBEvent) : CircuitBreaker :=
  match e with
  | CBEvent.success => cb.recordSuccess
  | CBEvent.failure now => cb.recordFailure now
  | CBEvent.checkOpen now => (cb.isOpen now).2
  | CBEvent.resetCall => cb.reset

/-- Run the breaker over a list of events. -/
def CircuitBreaker.run (cb : CircuitBreaker) (es : List CBEvent) : CircuitBreaker :=
  es.foldl CircuitBreaker.step cb

/-- An open breaker with default config, failed three times, last at time 0. -/
def sampleOpenBreaker : CircuitBreaker :=
  { state := CBState.opened, failures := 3, successes := 0,
    lastFailureTime := 0, config := defaultCircuitConfig }

/-- A half-open breaker with default config (stale failure count 3). -/
def sampleHalfOpenBreaker : CircuitBreaker :=
  { state := CBState.halfOpen, failures := 3, successes := 0,
    lastFailureTime := 0, config := defaultCircuitConfig }

/-! ## Request batcher (src: batch.ts) -/

/-- `AIResult`: `{known, data?, confidence?, fallback?}`.  An absent optional
field is `none`; the absent `fallback` field is modelled as `false`, matching
its JS truthiness. -/
structure AIResult where
  known : Bool
  data : Option String
  confidence : Option Nat
  fallback : Bool
deriving DecidableEq, Repr

/-- The plain `{known: false}` result used when a URL is absent from a batch
response. -/
def unknownResult : AIResult :=
  { known := false, data := none, confidence := none, fallback := false }

/-- The degraded `{known: false, fallback: true}` result. -/
def fallbackResult : AIResult :=
  { known := false, data := none, confidence := none, fallback := true }

/-- `BatchConfig`: maximum batch size and maximum wait in milliseconds. -/
structure BatchConfig where
  maxSize : Nat
  maxWait : Nat
deriving DecidableEq, Repr

/-- Default batch config: `maxSize: 50, maxWait: 50`. -/
def defaultBatchConfig : BatchConfig := { maxSize := 50, maxWait := 50 }

/-- A `PendingRequest` in the batcher queue; the caller's promise is
identified by `id`, settled exactly when a `Settle` event names it. -/
structure PendingRequest where
  id : Nat
  url : String
deriving DecidableEq, Repr

/-- A promise settlement produced by the batcher: `resolve(result)` or
`reject(error)` of one pending caller. -/
inductive Settle where
  | resolve (id : Nat) (r : AIResult)
  | reject (id : Nat) (e : String)
deriving DecidableEq, Repr

/-- The mutable fields of class `RequestBatcher`: the queue and the pending
flush timer.  `flushTimeout = some d` means a timer armed with delay `d` is
pending; `none` means no timer. -/
structure RequestBatcher where
  queue : List PendingRequest
  flushTimeout : Option Nat
  config : BatchConfig
deriving DecidableEq, Repr

/-- A freshly constructed batcher: empty queue, no timer. -/
def mkRequestBatcher (cfg : BatchConfig) : RequestBatcher :=
  { queue := [], flushTimeout := none, config := cfg }

/-- The synchronous prefix of `flush()` up to the `await`: cancel the pending
timer, and if the queue is non-empty splice at most `maxSize` items off its
front; the spliced batch is handed to the executor. -/
def RequestBatcher.flushSplice (b : RequestBatcher) :
    RequestBatcher × List PendingRequest :=
  if b.queue.isEmpty then
    ({ b with flushTimeout := none }, [])
  else
    ({ b with queue := b.queue.drop b.config.maxSize, flushTimeout := none },
     b.queue.take b.config.maxSize)

/-- The fan-out of one executor outcome over a spliced batch: on success each
caller resolves with `results.get(url)` if present, else `{known: false}`; on
failure each caller is rejected with the executor's error. -/
def flushSettle (batch : List PendingRequest)
    (resp : Except String (List (String × AIResult))) : List Settle :=
  match resp with
  | Except.ok results =>
      batch.map fun p =>
        match results.lookup p.url with
        | some r => Settle.resolve p.id r
        | none => Settle.resolve p.id unknownResult
  | Except.error e => batch.map fun p => Settle.reject p.id e

/-- The tail of `flush()`: if the queue is non-empty (overflow or arrivals
during the executor call), schedule another flush after `maxWait`. -/
def RequestBatcher.flushComplete (b : RequestBatcher) : RequestBatcher :=
  if b.queue.isEmpty then b
  else { b with flushTimeout := some b.config.maxWait }

/-- One whole `flush()` call, with the executor's outcome supplied as a
parameter: splice, at most one executor invocation (returned as the list of
URL lists it was called with), fan the outcome out, reschedule. -/
def RequestBatcher.flushRun (b : RequestBatcher)
    (resp : Except String (List (String × AIResult))) :
    RequestBatcher × List (List String) × List Settle :=
  let sp := b.flushSplice
  if sp.2.isEmpty then (sp.1, [], [])
  else (sp.1.flushComplete, [sp.2.map fun p => p.url], flushSettle sp.2 resp)

/-- `query(url)`: append the caller to the queue; flush immediately
(synchronously splicing off a batch) when the queue reaches `maxSize`;
otherwise arm the timer if none is pending.  Returns the dispatched batch,
when this enqueue triggered a flush. -/
def RequestBatcher.enqueue (b : RequestBatcher) (p : PendingRequest) :
    RequestBatcher × Option (List PendingRequest) :=
  let b1 := { b with queue := b.queue ++ [p] }
  if b1.queue.length ≥ b1.config.maxSize then
    ((b1.flushSplice).1, some (b1.flushSplice).2)
  else if b1.flushTimeout.isNone then
    ({ b1 with flushTimeout := some b1.config.maxWait }, none)
  else
    (b1, none)

/-- A sequence of `query(url)` calls; collects the batches dispatched to the
executor by size-triggered flushes, in order. -/
def RequestBatcher.enqueueAll (b : RequestBatcher) (ps : List PendingRequest) :
    RequestBatcher × List (List PendingRequest) :=
  match ps with
  | [] => (b, [])
  | p :: rest =>
      let st := b.enqueue p
      let st2 := st.1.enqueueAll rest
      (st2.1, (match st.2 with
               | some batch => [batch]
               | none => []) ++ st2.2)

/-- `clear()`: cancel the pending timer and resolve every still-queued caller
with `{known: false, fallback: true}`. -/
def RequestBatcher.clear (b : RequestBatcher) : RequestBatcher × List Settle :=
  ({ b with queue := [], flushTimeout := none },
   b.queue.map fun p => Settle.resolve p.id fallbackResult)

/-! ## Knowledge client (src: client.ts) -/

/-- `LearnResponse`: `{status: 'accepted'|'rejected'|'flagged', learned}`. -/
structure LearnResponse where
  status : String
  learned : Nat
deriving DecidableEq, Repr

/-- The non-accepted outcome `{status: 'rejected', learned: 0}` returned on
every failure path of `learn`. -/
def rejectedLearn : LearnResponse := { status := "rejected", learned := 0 }

/-- `FetchBrainClient.query(url)`: consult the circuit breaker first — if
open, return `{known: false, fallback: true}` without touching the batcher;
otherwise delegate to the batcher, whose outcome (resolution or rejection of
the returned promise) is passed in as `batcher`; a rejection is swallowed
into the fallback result.  Returns the result, the breaker after its
side-effecting `isOpen()` check, and whether the batcher was touched.  The
function is total: `query` never throws. -/
def FetchBrainClient.query (cb : CircuitBreaker) (now : Nat)
    (batcher : Except String AIResult) : AIResult × CircuitBreaker × Bool :=
  let chk := cb.isOpen now
  if chk.1 then (fallbackResult, chk.2, false)
  else
    match batcher with
    | Except.ok r => (r, chk.2, true)
    | Except.error _ => (fallbackResult, chk.2, true)

/-- `FetchBrainClient.learn(url, data)`: if learning is disabled, return the
rejected outcome without consulting breaker or backend; if the circuit is
open, return the rejected outcome without calling the backend; otherwise call
the backend (outcome passed in as `backend`), record a circuit success on
success and a circuit failure on failure, returning the rejected outcome in
the failure case.  Returns the response, the breaker, and whether the
backend was called.  The function is total: `learn` never throws. -/
def FetchBrainClient.learn (learning : Bool) (cb : CircuitBreaker) (now : Nat)
    (backend : Except String LearnResponse) :
    LearnResponse × CircuitBreaker × Bool :=
  if !learning then (rejectedLearn, cb, false)
  else
    let chk := cb.isOpen now
    if chk.1 then (rejectedLearn, chk.2, false)
    else
      match backend with
      | Except.ok resp => (resp, chk.2.recordSuccess, true)
      | Except.error _ => (rejectedLearn, chk.2.recordFailure now, true)

/-! ## Handler wrapper and data-sink interception (src: index.ts, enhance) -/

/-- The `alwaysRun` configuration: `undefined | boolean | string | string[]`. -/
inductive AlwaysRunCfg where
  | undef
  | flag (b : Bool)
  | label (s : String)
  | labels (ls : List String)
deriving DecidableEq, Repr

/-- `label || 'default'`: a missing or empty (JS-falsy) label becomes
`"default"`. -/
def requestLabel (label : Option String) : String :=
  match label with
  | none => "default"
  | some s => if s = "" then "default" else s

/-- `shouldRunHandler(alwaysRun, label)`: skip by default (`undefined` or
`false`); run everything on `true`; otherwise run exactly the listed
label(s), a single string being treated as a one-element list. -/
def shouldRunHandler (alwaysRun : AlwaysRunCfg) (label : Option String) : Bool :=
  match alwaysRun with
  | AlwaysRunCfg.undef => false
  | AlwaysRunCfg.flag false => false
  | AlwaysRunCfg.flag true => true
  | AlwaysRunCfg.label s => [s].contains (requestLabel label)
  | AlwaysRunCfg.labels ls => ls.contains (requestLabel label)

/-- The wrapper configuration used by `enhance`: the `alwaysRun` policy and
the resolved value of `config.learning !== false`. -/
structure WrapperConfig where
  alwaysRun : AlwaysRunCfg
  learning : Bool
deriving DecidableEq, Repr

/-- One inbound request: its URL, optional label, and whether the handler
context carries a native `pushData` capability (`originalPushData`). -/
structure RequestInfo where
  url : String
  label : Option String
  hasPushData : Bool
deriving DecidableEq, Repr

/-- What the original handler body does, as far as the wrapper can observe:
calls to the intercepted `context.pushData`, calls to the standalone
`pushData(data, dataset)` wrapper (single item or array), and calls to the
`ai.useAIData()` affordance. -/
inductive HandlerAction where
  | pushContext (data : String)
  | pushStandalone (items : List String)
  | useAIData
deriving DecidableEq, Repr

/-- An externally visible side effect of one request's execution: a
`client.learn(url, data)` (teach) call, a push through the request's native
data sink, or a push to a standalone dataset. -/
inductive Effect where
  | learn (url : String) (data : String)
  | sink (data : String)
  | datasetPush (items : List String)
deriving DecidableEq, Repr

/-- One handler action under the wrapper's interception.  `usedAIData` is
the mutable flag set by `useAIData()`; the intercepted `context.pushData`
(installed only when `originalPushData` exists and learning is on) teaches
before forwarding exactly when `!usedAIData && !aiResult.known`; the
standalone `pushData` wrapper reads the ambient scope
`{url, learning, aiKnown}` and teaches each item when
`learning && !aiKnown`; `useAIData()` pushes the AI data through the
original sink and sets the flag, when `known && data && originalPushData`. -/
def stepAction (cfg : WrapperConfig) (req : RequestInfo) (aiResult : AIResult)
    (usedAIData : Bool) (a : HandlerAction) : Bool × List Effect :=
  match a with
  | HandlerAction.useAIData =>
      match aiResult.data with
      | some d =>
          if aiResult.known && req.hasPushData then (true, [Effect.sink d])
          else (usedAIData, [])
      | none => (usedAIData, [])
  | HandlerAction.pushContext d =>
      if req.hasPushData && cfg.learning then
        if !usedAIData && !aiResult.known then
          (usedAIData, [Effect.learn req.url d, Effect.sink d])
        else
          (usedAIData, [Effect.sink d])
      else if req.hasPushData then
        (usedAIData, [Effect.sink d])
      else
        (usedAIData, [])
  | HandlerAction.pushStandalone items =>
      if cfg.learning && !aiResult.known then
        (usedAIData, items.map (Effect.learn req.url) ++ [Effect.datasetPush items])
      else
        (usedAIData, [Effect.datasetPush items])

/-- Run the handler body's actions in order, threading the `usedAIData`
flag, and collect the emitted effects. -/
def runHandlerActions (cfg : WrapperConfig) (req : RequestInfo)
    (aiResult : AIResult) : Bool → List HandlerAction → List Effect
  | _, [] => []
  | used, a :: rest =>
      (stepAction cfg req aiResult used a).2 ++
        runHandlerActions cfg req aiResult (stepAction cfg req aiResult used a).1 rest

/-- The wrapped request handler, given the query result for the request's
URL: when `aiResult.known && aiResult.data && !shouldRunHandler(...)`, skip —
push the known data once through the original sink (when present) and do not
run the handler body; otherwise run the handler body under the interception
and the ambient request scope.  Returns whether the original handler body
ran, and the emitted effects. -/
def wrappedHandler (cfg : WrapperConfig) (req : RequestInfo)
    (aiResult : AIResult) (actions : List HandlerAction) : Bool × List Effect :=
  match aiResult.data, aiResult.known && !(shouldRunHandler cfg.alwaysRun req.label) with
  | some d, true =>
      (false, if req.hasPushData then [Effect.sink d] else [])
  | some _, false => (true, runHandlerActions cfg req aiResult false actions)
  | none, _ => (true, runHandlerActions cfg req aiResult false actions)

/-! ## Lemmas and theorems -/

lemma failSeq_closed (ts : List Nat) :
    ∀ cb : CircuitBreaker, cb.state = CBState.closed →
      cb.failures + ts.length < cb.config.failureThreshold →
      (failSeq cb ts).state = CBState.closed ∧
      (failSeq cb ts).failures = cb.failures + ts.length ∧
      (failSeq cb ts).successes = cb.successes ∧
      (failSeq cb ts).config = cb.config ∧
      (ts = [] → (failSeq cb ts).lastFailureTime = cb.lastFailureTime) := by
  induction ts with
  | nil =>
      intro cb hst hlt
      simp [failSeq, hst]
  | cons t ts ih =>
      intro cb hst hlt
      have hne : ¬ (cb.failures + 1 ≥ cb.config.failureThreshold) := by
        simp only [List.length_cons] at hlt
        omega
      have hstep : cb.recordFailure t =
          { cb with failures := cb.failures + 1, lastFailureTime := t } := by
        unfold CircuitBreaker.recordFailure
        simp [hst, hne]
      have hrec := ih { cb with failures := cb.failures + 1, lastFailureTime := t }
        (by simp [hst])
        (by simp only [List.length_cons] at hlt; simp; omega)
      have hfold : failSeq cb (t :: ts) =
          failSeq { cb with failures := cb.failures + 1, lastFailureTime := t } ts := by
        simp [failSeq, List.foldl_cons, hstep]
      refine ⟨?_, ?_, ?_, ?_, ?_⟩
      · rw [hfold]; exact hrec.1
      · rw [hfold]; simp [hrec.2.1]; omega
      · rw [hfold]; simpa using hrec.2.2.1
      · rw [hfold]; simpa using hrec.2.2.2.1
      · intro h; cases h

lemma recordFailure_closed_hit (cb : CircuitBreaker) (t : Nat)
    (hst : cb.state = CBState.closed)
    (hge : cb.failures + 1 ≥ cb.config.failureThreshold) :
    cb.recordFailure t =
      { cb with state := CBState.opened, failures := cb.failures + 1,
                lastFailureTime := t } := by
  unfold CircuitBreaker.recordFailure
  simp [hst, hge]

/-- C3: starting from a fresh breaker, a run of exactly `failureThreshold`
`recordFailure()` calls (and not one fewer) opens the circuit, stamps
`lastFailureTime` with the final failure's time, and makes `isOpen()` answer
true while the reset timeout has not elapsed; a `recordSuccess()` while
closed zeroes the failure count, so the same run with a success inserted in
the middle leaves the breaker closed. -/
theorem circuit_breaker_closed_threshold
    (cfg : CircuitBreakerConfig) (ts : List Nat) (t now : Nat)
    (hlen : ts.length + 1 = cfg.failureThreshold)
    (hnow : (now : Int) - (t : Int) < (cfg.resetTimeout : Int)) :
    (failSeq (mkCircuitBreaker cfg) ts).state = CBState.closed ∧
    (failSeq (mkCircuitBreaker cfg) (ts ++ [t])).state = CBState.opened ∧
    (failSeq (mkCircuitBreaker cfg) (ts ++ [t])).failures = cfg.failureThreshold ∧
    (failSeq (mkCircuitBreaker cfg) (ts ++ [t])).lastFailureTime = t ∧
    ((failSeq (mkCircuitBreaker cfg) (ts ++ [t])).isOpen now).1 = true ∧
    (∀ cb : CircuitBreaker, cb.state = CBState.closed →
      cb.recordSuccess.state = CBState.closed ∧ cb.recordSuccess.failures = 0) ∧
    (failSeq ((failSeq (mkCircuitBreaker cfg) ts).recordSuccess) ts).state
      = CBState.closed := by
  have hlt : (mkCircuitBreaker cfg).failures + ts.length < cfg.failureThreshold := by
    simp [mkCircuitBreaker]; omega
  obtain ⟨h1, h2, h3, h4, -⟩ :=
    failSeq_closed ts (mkCircuitBreaker cfg) (by simp [mkCircuitBreaker]) hlt
  have hcfg : (failSeq (mkCircuitBreaker cfg) ts).config = cfg := by
    simpa [mkCircuitBreaker] using h4
  have h2' : (failSeq (mkCircuitBreaker cfg) ts).failures = ts.length := by
    simpa [mkCircuitBreaker] using h2
  have happ : failSeq (mkCircuitBreaker cfg) (ts ++ [t]) =
      (failSeq (mkCircuitBreaker cfg) ts).recordFailure t := by
    simp [failSeq, List.foldl_append]
  have hhit := recordFailure_closed_hit (failSeq (mkCircuitBreaker cfg) ts) t h1
    (by rw [h2', hcfg]; omega)
  have hsucc : ∀ cb : CircuitBreaker, cb.state = CBState.closed →
      cb.recordSuccess.state = CBState.closed ∧ cb.recordSuccess.failures = 0 := by
    intro cb hst
    unfold CircuitBreaker.recordSuccess
    simp [hst]
  refine ⟨h1, ?_, ?_, ?_, ?_, hsucc, ?_⟩
  · rw [happ, hhit]
  · rw [happ, hhit]; simp [h2', hlen]
  · rw [happ, hhit]
  · rw [happ, hhit]
    unfold CircuitBreaker.isOpen
    simp only [hcfg]
    have : ¬ ((now : Int) - (t : Int) ≥ (cfg.resetTimeout : Int)) := by omega
    simp [this]
  · have hs := hsucc (failSeq (mkCircuitBreaker cfg) ts) h1
    have hscfg : (failSeq (mkCircuitBreaker cfg) ts).recordSuccess.config = cfg := by
      unfold CircuitBreaker.recordSuccess
      simp [h1, hcfg]
    obtain ⟨g1, -, -, -, -⟩ :=
      failSeq_closed ts ((failSeq (mkCircuitBreaker cfg) ts).recordSuccess) hs.1
        (by rw [hs.2, hscfg]; omega)
    exact g1

/-- C3 witness: threshold 3, failures at times 10, 20, 30, checked at time 40. -/
theorem circuit_breaker_closed_threshold_witness :
    ((failSeq (mkCircuitBreaker defaultCircuitConfig) ([10, 20] ++ [30])).isOpen 40).1
      = true :=
  (circuit_breaker_closed_threshold defaultCircuitConfig [10, 20] 30 40
    (by decide) (by decide)).2.2.2.2.1

/-- C4: the recovery cycle.  (1) An open breaker whose reset timeout has
elapsed transitions to half-open on the next `isOpen()` call, zeroing the
trial success counter, and answers false.  (2) In half-open, a
`recordSuccess()` that reaches `successThreshold` closes the circuit with all
counters and the timestamp zeroed.  (3) In half-open, `recordFailure()` goes
straight back to open and stamps `lastFailureTime`. -/
theorem circuit_breaker_recovery_cycle :
    (∀ (cb : CircuitBreaker) (now : Nat), cb.state = CBState.opened →
      (now : Int) - (cb.lastFailureTime : Int) ≥ (cb.config.resetTimeout : Int) →
      (cb.isOpen now).1 = false ∧
      (cb.isOpen now).2.state = CBState.halfOpen ∧
      (cb.isOpen now).2.successes = 0) ∧
    (∀ cb : CircuitBreaker, cb.state = CBState.halfOpen →
      cb.successes + 1 ≥ cb.config.successThreshold →
      cb.recordSuccess.state = CBState.closed ∧
      cb.recordSuccess.failures = 0 ∧
      cb.recordSuccess.successes = 0 ∧
      cb.recordSuccess.lastFailureTime = 0) ∧
    (∀ (cb : CircuitBreaker) (now : Nat), cb.state = CBState.halfOpen →
      (cb.recordFailure now).state = CBState.opened ∧
      (cb.recordFailure now).lastFailureTime = now) := by
  refine ⟨?_, ?_, ?_⟩
  · intro cb now hst helapsed
    unfold CircuitBreaker.isOpen
    simp [hst, helapsed]
  · intro cb hst hth
    unfold CircuitBreaker.recordSuccess CircuitBreaker.reset
    simp [hst, hth]
  · intro cb now hst
    unfold CircuitBreaker.recordFailure
    simp [hst]

/-- C4 witness: a breaker open since time 0 with a 30000 ms timeout, checked
at time 30000, then exercised through the half-open trial transitions. -/
theorem circuit_breaker_recovery_cycle_witness :
    ((sampleOpenBreaker.isOpen 30000).1 = false ∧
      (sampleOpenBreaker.isOpen 30000).2.state = CBState.halfOpen) ∧
    sampleHalfOpenBreaker.recordSuccess.state = CBState.closed ∧
    (sampleHalfOpenBreaker.recordFailure 7).state = CBState.opened := by
  refine ⟨⟨?_, ?_⟩, ?_, ?_⟩
  · exact (circuit_breaker_recovery_cycle.1 _ 30000 rfl (by decide)).1
  · exact (circuit_breaker_recovery_cycle.1 _ 30000 rfl (by decide)).2.1
  · exact (circuit_breaker_recovery_cycle.2.1 _ rfl (by decide)).1
  · exact (circuit_breaker_recovery_cycle.2.2 _ 7 rfl).1

/-- C10: `recordFailure()` on an already-open breaker re-stamps
`lastFailureTime` with the current time, so `isOpen()` keeps answering true
(and performs no transition) until a full `resetTimeout` elapses after the
latest failure — failures recorded while open postpone recovery. -/
theorem circuit_breaker_open_restamp (cb : CircuitBreaker) (t now : Nat)
    (hopen : cb.state = CBState.opened)
    (hnow : (now : Int) - (t : Int) < (cb.config.resetTimeout : Int)) :
    (cb.recordFailure t).state = CBState.opened ∧
    (cb.recordFailure t).lastFailureTime = t ∧
    ((cb.recordFailure t).isOpen now).1 = true ∧
    ((cb.recordFailure t).isOpen now).2 = cb.recordFailure t := by
  have hcfg : (cb.recordFailure t).config = cb.config := by
    unfold CircuitBreaker.recordFailure
    split_ifs <;> rfl
  have hkey : (cb.recordFailure t).state = CBState.opened ∧
      (cb.recordFailure t).lastFailureTime = t := by
    unfold CircuitBreaker.recordFailure
    split_ifs <;> simp_all
  have hnot : ¬ ((now : Int) - ((cb.recordFailure t).lastFailureTime : Int)
      ≥ ((cb.recordFailure t).config.resetTimeout : Int)) := by
    rw [hkey.2, hcfg]; omega
  refine ⟨hkey.1, hkey.2, ?_, ?_⟩
  · unfold CircuitBreaker.isOpen
    simp [hkey.1, hnot]
  · unfold CircuitBreaker.isOpen
    simp [hkey.1, hnot]

/-- C10 witness: an open breaker re-failed at time 25000 still reports open
at time 54999 (25000 + 30000 - 1). -/
theorem circuit_breaker_open_restamp_witness :
    ((sampleOpenBreaker.recordFailure 25000).isOpen 54999).1 = true :=
  (circuit_breaker_open_restamp sampleOpenBreaker 25000 54999 rfl (by decide)).2.2.1

/-- C9 counterexample: a concrete trace refuting "entering Half-Open resets
the failure counter": three failures open the breaker, and the `isOpen()`
call at time 40000 moves it to half-open while `failures` is still 3. -/
theorem circuit_breaker_counter_counterexample :
    ((mkCircuitBreaker defaultCircuitConfig).run
      [CBEvent.failure 0, CBEvent.failure 1, CBEvent.failure 2,
       CBEvent.checkOpen 40000]).state = CBState.halfOpen ∧
    ((mkCircuitBreaker defaultCircuitConfig).run
      [CBEvent.failure 0, CBEvent.failure 1, CBEvent.failure 2,
       CBEvent.checkOpen 40000]).failures = 3 ∧
    ¬ ((mkCircuitBreaker defaultCircuitConfig).run
      [CBEvent.failure 0, CBEvent.failure 1, CBEvent.failure 2,
       CBEvent.checkOpen 40000]).failures = 0 := by
  refine ⟨?_, ?_, ?_⟩ <;> decide

lemma step_preserves_closed_successes (cb : CircuitBreaker) (e : CBEvent)
    (h : cb.state = CBState.closed → cb.successes = 0) :
    (cb.step e).state = CBState.closed → (cb.step e).successes = 0 := by
  cases e with
  | success =>
      unfold CircuitBreaker.step CircuitBreaker.recordSuccess
      cases hst : cb.state <;> simp only [hst]
      · intro _; exact h hst
      · intro hc; simp at hc
      · split_ifs
        · intro _; simp [CircuitBreaker.reset]
        · intro hc; simp at hc
  | failure now =>
      unfold CircuitBreaker.step CircuitBreaker.recordFailure
      split_ifs
      · intro hc; simp at hc
      · intro hc; simp at hc
      · intro hc; exact h hc
  | checkOpen now =>
      unfold CircuitBreaker.step CircuitBreaker.isOpen
      cases hst : cb.state <;> simp only [hst]
      · intro _; exact h hst
      · split_ifs
        · intro hc; simp at hc
        · intro hc; simp [hst] at hc
      · intro hc; simp [hst] at hc
  | resetCall =>
      intro _
      unfold CircuitBreaker.step CircuitBreaker.reset
      simp

lemma run_closed_successes (es : List CBEvent) :
    ∀ cb : CircuitBreaker, (cb.state = CBState.closed → cb.successes = 0) →
      (cb.run es).state = CBState.closed → (cb.run es).successes = 0 := by
  induction es with
  | nil =>
      intro cb h
      simpa [CircuitBreaker.run] using h
  | cons e es ih =>
      intro cb h
      have hstep := step_preserves_closed_successes cb e h
      have : cb.run (e :: es) = (cb.step e).run es := by
        simp [CircuitBreaker.run, List.foldl_cons]
      rw [this]
      exact ih (cb.step e) hstep

/-- C9 (amended): transitions reset the counter relevant to the newly
entered state, not the irrelevant one.  Entering half-open (from open, in
`isOpen()`) zeroes `successes` but leaves the stale `failures` untouched;
returning to open (from half-open, in `recordFailure()`) leaves `successes`
untouched; only `reset()` (entering closed) zeroes both.  The staleness is
harmless: in every reachable state, a closed breaker has `successes = 0`,
and the half-open logic never reads `failures`. -/
theorem circuit_breaker_counter_discipline :
    (∀ (cb : CircuitBreaker) (now : Nat), cb.state = CBState.opened →
      (now : Int) - (cb.lastFailureTime : Int) ≥ (cb.config.resetTimeout : Int) →
      (cb.isOpen now).2.state = CBState.halfOpen ∧
      (cb.isOpen now).2.successes = 0 ∧
      (cb.isOpen now).2.failures = cb.failures) ∧
    (∀ (cb : CircuitBreaker) (now : Nat), cb.state = CBState.halfOpen →
      (cb.recordFailure now).state = CBState.opened ∧
      (cb.recordFailure now).successes = cb.successes) ∧
    (∀ cb : CircuitBreaker,
      cb.reset.state = CBState.closed ∧ cb.reset.failures = 0 ∧
      cb.reset.successes = 0) ∧
    (∀ (cfg : CircuitBreakerConfig) (es : List CBEvent),
      ((mkCircuitBreaker cfg).run es).state = CBState.closed →
      ((mkCircuitBreaker cfg).run es).successes = 0) := by
  refine ⟨?_, ?_, ?_, ?_⟩
  · intro cb now hst helapsed
    unfold CircuitBreaker.isOpen
    simp [hst, helapsed]
  · intro cb now hst
    unfold CircuitBreaker.recordFailure
    simp [hst]
  · intro cb
    simp [CircuitBreaker.reset]
  · intro cfg es
    exact run_closed_successes es (mkCircuitBreaker cfg) (fun _ => rfl)

/-- C9 amended witness: the transition facts at the sample breakers, and the
reachability invariant on the counterexample trace extended by `reset()`. -/
theorem circuit_breaker_counter_discipline_witness :
    ((sampleOpenBreaker.isOpen 30000).2.state = CBState.halfOpen ∧
      (sampleOpenBreaker.isOpen 30000).2.failures = sampleOpenBreaker.failures) ∧
    (sampleHalfOpenBreaker.recordFailure 7).successes
      = sampleHalfOpenBreaker.successes ∧
    (((mkCircuitBreaker defaultCircuitConfig).run
        [CBEvent.failure 0, CBEvent.failure 1, CBEvent.failure 2,
         CBEvent.checkOpen 40000, CBEvent.resetCall]).state = CBState.closed →
      ((mkCircuitBreaker defaultCircuitConfig).run
        [CBEvent.failure 0, CBEvent.failure 1, CBEvent.failure 2,
         CBEvent.checkOpen 40000, CBEvent.resetCall]).successes = 0) := by
  refine ⟨⟨?_, ?_⟩, ?_, ?_⟩
  · exact (circuit_breaker_counter_discipline.1 sampleOpenBreaker 30000 rfl
      (by decide)).1
  · exact (circuit_breaker_counter_discipline.1 sampleOpenBreaker 30000 rfl
      (by decide)).2.2
  · exact (circuit_breaker_counter_discipline.2.1 sampleHalfOpenBreaker 7 rfl).2
  · exact circuit_breaker_counter_discipline.2.2.2 defaultCircuitConfig
      [CBEvent.failure 0, CBEvent.failure 1, CBEvent.failure 2,
       CBEvent.checkOpen 40000, CBEvent.resetCall]

example :
    ((mkRequestBatcher { maxSize := 2, maxWait := 50 }).enqueueAll
      [⟨0, "a"⟩, ⟨1, "b"⟩, ⟨2, "c"⟩]).2 = [[⟨0, "a"⟩, ⟨1, "b"⟩]] := by decide

example :
    ((mkRequestBatcher { maxSize := 2, maxWait := 50 }).enqueueAll
      [⟨0, "a"⟩, ⟨1, "b"⟩, ⟨2, "c"⟩]).1.queue = [⟨2, "c"⟩] := by decide

example :
    ((mkRequestBatcher { maxSize := 2, maxWait := 50 }).enqueueAll
      [⟨0, "a"⟩, ⟨1, "b"⟩, ⟨2, "c"⟩]).1.flushTimeout = some 50 := by decide

lemma flushSplice_eq (b : RequestBatcher) :
    b.flushSplice.2 = b.queue.take b.config.maxSize ∧
    b.flushSplice.1.queue = b.queue.drop b.config.maxSize ∧
    b.flushSplice.1.flushTimeout = none ∧
    b.flushSplice.1.config = b.config := by
  unfold RequestBatcher.flushSplice
  split_ifs with h
  · simp at h
    simp [h]
  · simp

lemma enqueueAll_cons (b : RequestBatcher) (p : PendingRequest)
    (rest : List PendingRequest) :
    b.enqueueAll (p :: rest) =
      (((b.enqueue p).1.enqueueAll rest).1,
       (match (b.enqueue p).2 with
        | some batch => [batch]
        | none => []) ++ ((b.enqueue p).1.enqueueAll rest).2) := rfl

lemma enqueue_full (b : RequestBatcher) (p : PendingRequest)
    (hlen : b.queue.length + 1 = b.config.maxSize) :
    b.enqueue p = (⟨[], none, b.config⟩, some (b.queue ++ [p])) := by
  unfold RequestBatcher.enqueue RequestBatcher.flushSplice
  have h1 : (b.queue ++ [p]).length ≥ b.config.maxSize := by simp; omega
  have h2 : ¬ (b.queue ++ [p]).isEmpty := by simp
  have h3 : (b.queue ++ [p]).drop b.config.maxSize = [] := by
    apply List.drop_eq_nil_of_le
    simp; omega
  have h4 : (b.queue ++ [p]).take b.config.maxSize = b.queue ++ [p] := by
    apply List.take_of_length_le
    simp; omega
  simp only [h1, if_pos, h2, if_neg, Bool.false_eq_true, not_false_eq_true, h3, h4]

lemma enqueue_notFull (b : RequestBatcher) (p : PendingRequest)
    (hlen : b.queue.length + 1 < b.config.maxSize) :
    b.enqueue p =
      (⟨b.queue ++ [p],
        if b.flushTimeout.isNone then some b.config.maxWait else b.flushTimeout,
        b.config⟩, none) := by
  unfold RequestBatcher.enqueue
  have h1 : ¬ ((b.queue ++ [p]).length ≥ b.config.maxSize) := by simp; omega
  split_ifs <;> simp_all

lemma enqueueAll_spec (ps : List PendingRequest) :
    ∀ b : RequestBatcher, b.queue.length < b.config.maxSize →
      (b.enqueueAll ps).1.config = b.config ∧
      (b.enqueueAll ps).1.queue.length < b.config.maxSize ∧
      (b.enqueueAll ps).2.flatten ++ (b.enqueueAll ps).1.queue = b.queue ++ ps ∧
      (∀ c ∈ (b.enqueueAll ps).2, c.length = b.config.maxSize) := by
  induction ps with
  | nil =>
      intro b h
      simp [RequestBatcher.enqueueAll, h]
  | cons p rest ih =>
      intro b h
      by_cases hfull : b.queue.length + 1 ≥ b.config.maxSize
      · have hlen : b.queue.length + 1 = b.config.maxSize := by omega
        have henq := enqueue_full b p hlen
        have hrec := ih ⟨[], none, b.config⟩ (by simp; omega)
        simp only [RequestBatcher.enqueueAll, henq, List.flatten_cons,
          List.singleton_append]
        refine ⟨hrec.1, hrec.2.1, ?_, ?_⟩
        · have h5 := hrec.2.2.1
          simp only [List.nil_append] at h5
          simp [h5]
        · intro c hc
          simp only [List.mem_cons] at hc
          rcases hc with hc | hc
          · rw [hc]; simp; omega
          · exact hrec.2.2.2 c hc
      · have hlen : b.queue.length + 1 < b.config.maxSize := by omega
        have henq := enqueue_notFull b p hlen
        have hrec := ih ⟨b.queue ++ [p],
            if b.flushTimeout.isNone then some b.config.maxWait else b.flushTimeout,
            b.config⟩ (by simp; omega)
        simp only [RequestBatcher.enqueueAll, henq, List.nil_append]
        refine ⟨hrec.1, hrec.2.1, ?_, hrec.2.2.2⟩
        have h5 := hrec.2.2.1
        simp only at h5 ⊢
        rw [h5]
        simp

/-- C5: (1) every flush splices at most `maxSize` items off the front of the
queue in arrival order, leaving overflow behind and cancelling the timer;
(2) when `N >= maxSize` queries arrive before the timer fires, the
size-triggered flushes dispatch full chunks of exactly `maxSize` URLs, each
as a separate executor call, and the final timer-driven flush dispatches the
remainder (at most `maxSize`), covering all arrivals in order; (3) a flush
that completes with a non-empty queue schedules a new flush with the same
`maxWait` delay. -/
theorem batcher_flush_chunking (cfg : BatchConfig) (hm : 1 ≤ cfg.maxSize)
    (ps : List PendingRequest) :
    (∀ b : RequestBatcher,
      b.flushSplice.2 = b.queue.take b.config.maxSize ∧
      b.flushSplice.1.queue = b.queue.drop b.config.maxSize ∧
      b.flushSplice.1.flushTimeout = none) ∧
    ((∀ c ∈ ((mkRequestBatcher cfg).enqueueAll ps).2, c.length = cfg.maxSize) ∧
      ((mkRequestBatcher cfg).enqueueAll ps).1.flushSplice.2.length ≤ cfg.maxSize ∧
      ((mkRequestBatcher cfg).enqueueAll ps).2.flatten ++
        ((mkRequestBatcher cfg).enqueueAll ps).1.flushSplice.2 = ps ∧
      ((mkRequestBatcher cfg).enqueueAll ps).1.flushSplice.1.queue = []) ∧
    (∀ (b : RequestBatcher) (resp : Except String (List (String × AIResult))),
      1 ≤ b.config.maxSize → b.queue ≠ [] →
      (b.flushRun resp).1.queue = b.queue.drop b.config.maxSize ∧
      (b.queue.drop b.config.maxSize ≠ [] →
        (b.flushRun resp).1.flushTimeout = some b.config.maxWait) ∧
      (b.flushRun resp).2.1 = [(b.queue.take b.config.maxSize).map fun p => p.url]) := by
  have hsp := flushSplice_eq
  obtain ⟨g1, g2, g3, g4⟩ := enqueueAll_spec ps (mkRequestBatcher cfg)
    (by simpa [mkRequestBatcher] using hm)
  have hcfg : ((mkRequestBatcher cfg).enqueueAll ps).1.config = cfg := by
    simpa [mkRequestBatcher] using g1
  refine ⟨fun b => ⟨(hsp b).1, (hsp b).2.1, (hsp b).2.2.1⟩, ⟨?_, ?_, ?_, ?_⟩, ?_⟩
  · intro c hc
    have := g4 c hc
    simpa [mkRequestBatcher] using this
  · rw [(hsp _).1, hcfg, List.length_take]
    omega
  · rw [(hsp _).1, hcfg]
    have htake : ((mkRequestBatcher cfg).enqueueAll ps).1.queue.take cfg.maxSize
        = ((mkRequestBatcher cfg).enqueueAll ps).1.queue := by
      apply List.take_of_length_le
      have h6 : ((mkRequestBatcher cfg).enqueueAll ps).1.queue.length
          < cfg.maxSize := g2
      omega
    rw [htake]
    simpa [mkRequestBatcher] using g3
  · rw [(hsp _).2.1, hcfg]
    apply List.drop_eq_nil_of_le
    have h6 : ((mkRequestBatcher cfg).enqueueAll ps).1.queue.length
        < cfg.maxSize := g2
    omega
  · intro b resp hm1 hq
    have hne : ¬ (b.queue.take b.config.maxSize).isEmpty := by
      simp only [List.isEmpty_iff]
      intro hcontra
      rw [List.take_eq_nil_iff] at hcontra
      rcases hcontra with hc | hc
      · omega
      · exact hq hc
    have hrun : b.flushRun resp =
        (b.flushSplice.1.flushComplete,
         [b.flushSplice.2.map fun p => p.url],
         flushSettle b.flushSplice.2 resp) := by
      simp only [RequestBatcher.flushRun]
      rw [(hsp b).1, if_neg hne]
    rw [hrun]
    refine ⟨?_, ?_, ?_⟩
    · unfold RequestBatcher.flushComplete
      split_ifs with hemp
    
      · simp only [List.isEmpty_iff] at hemp
        rw [(hsp b).2.1]
      · rw [(hsp b).2.1]
    · intro hnonempty
      unfold RequestBatcher.flushComplete
      have : ¬ b.flushSplice.1.queue.isEmpty = true := by
        simp only [List.isEmpty_iff]
        rw [(hsp b).2.1]
        exact hnonempty
      simp only [this, if_neg, Bool.false_eq_true, not_false_eq_true]
      rw [(hsp b).2.2.2]
    · rw [(hsp b).1]

/-- C5 witness: maxSize 2, three arrivals — one full size-triggered chunk,
then the remainder flushed by the timer. -/
theorem batcher_flush_chunking_witness :
    ((mkRequestBatcher { maxSize := 2, maxWait := 50 }).enqueueAll
        [⟨0, "a"⟩, ⟨1, "b"⟩, ⟨2, "c"⟩]).2.flatten ++
      ((mkRequestBatcher { maxSize := 2, maxWait := 50 }).enqueueAll
        [⟨0, "a"⟩, ⟨1, "b"⟩, ⟨2, "c"⟩]).1.flushSplice.2
      = [⟨0, "a"⟩, ⟨1, "b"⟩, ⟨2, "c"⟩] :=
  (batcher_flush_chunking { maxSize := 2, maxWait := 50 } (by decide)
    [⟨0, "a"⟩, ⟨1, "b"⟩, ⟨2, "c"⟩]).2.1.2.2.1

lemma take_not_empty (b : RequestBatcher) (hq : b.queue ≠ [])
    (hm : 1 ≤ b.config.maxSize) :
    ¬ (b.queue.take b.config.maxSize).isEmpty = true := by
  simp only [List.isEmpty_iff]
  intro hcontra
  rw [List.take_eq_nil_iff] at hcontra
  rcases hcontra with hc | hc
  · omega
  · exact hq hc

lemma flushRun_nonempty (b : RequestBatcher)
    (resp : Except String (List (String × AIResult)))
    (hq : b.queue ≠ []) (hm : 1 ≤ b.config.maxSize) :
    b.flushRun resp =
      (b.flushSplice.1.flushComplete,
       [(b.queue.take b.config.maxSize).map fun p => p.url],
       flushSettle (b.queue.take b.config.maxSize) resp) := by
  simp only [RequestBatcher.flushRun]
  rw [(flushSplice_eq b).1, if_neg (take_not_empty b hq hm)]

lemma flushComplete_queue (b : RequestBatcher) :
    b.flushComplete.queue = b.queue := by
  unfold RequestBatcher.flushComplete
  split_ifs <;> rfl

lemma flushSettle_ok_eq (batch : List PendingRequest)
    (results : List (String × AIResult)) :
    flushSettle batch (Except.ok results) =
      batch.map fun p =>
        Settle.resolve p.id ((results.lookup p.url).getD unknownResult) := by
  induction batch with
  | nil => rfl
  | cons p rest ih =>
      have hstep : flushSettle (p :: rest) (Except.ok results) =
          (match results.lookup p.url with
           | some r => Settle.resolve p.id r
           | none => Settle.resolve p.id unknownResult)
            :: flushSettle rest (Except.ok results) := rfl
      rw [hstep, ih, List.map_cons]
      congr 1
      cases results.lookup p.url <;> rfl

/-- C6: for a flush over a non-empty queue, (1) on executor success every
caller in the flushed batch resolves with the result map's entry for its URL
when present and with the plain `{known: false}` default when absent —
absence is never an error, no caller is rejected; (2) on executor failure
every caller in the batch is rejected with that same error, the failed batch
is not re-queued, and the one executor call is the only one made — no
automatic retry. -/
theorem batcher_fanout_and_failure (b : RequestBatcher)
    (results : List (String × AIResult)) (e : String)
    (hq : b.queue ≠ []) (hm : 1 ≤ b.config.maxSize) :
    ((b.flushRun (Except.ok results)).2.2 =
      (b.queue.take b.config.maxSize).map fun p =>
        Settle.resolve p.id ((results.lookup p.url).getD unknownResult)) ∧
    (∀ p ∈ b.queue.take b.config.maxSize, ∀ r : AIResult,
      results.lookup p.url = some r →
      Settle.resolve p.id r ∈ (b.flushRun (Except.ok results)).2.2) ∧
    (∀ p ∈ b.queue.take b.config.maxSize, results.lookup p.url = none →
      Settle.resolve p.id unknownResult ∈ (b.flushRun (Except.ok results)).2.2) ∧
    (∀ s ∈ (b.flushRun (Except.ok results)).2.2, ∀ (i : Nat) (er : String),
      s ≠ Settle.reject i er) ∧
    ((b.flushRun (Except.error e)).2.2 =
      (b.queue.take b.config.maxSize).map fun p => Settle.reject p.id e) ∧
    ((b.flushRun (Except.error e)).1.queue = b.queue.drop b.config.maxSize) ∧
    ((b.flushRun (Except.error e)).2.1 =
      [(b.queue.take b.config.maxSize).map fun p => p.url]) := by
  have hok := flushRun_nonempty b (Except.ok results) hq hm
  have herr := flushRun_nonempty b (Except.error e) hq hm
  have hset : (b.flushRun (Except.ok results)).2.2 =
      (b.queue.take b.config.maxSize).map fun p =>
        Settle.resolve p.id ((results.lookup p.url).getD unknownResult) := by
    rw [hok]
    exact flushSettle_ok_eq _ _
  refine ⟨hset, ?_, ?_, ?_, ?_, ?_, ?_⟩
  · intro p hp r hr
    rw [hset]
    have := List.mem_map_of_mem
      (fun q => Settle.resolve q.id ((results.lookup q.url).getD unknownResult)) hp
    simpa [hr] using this
  · intro p hp hr
    rw [hset]
    have := List.mem_map_of_mem
      (fun q => Settle.resolve q.id ((results.lookup q.url).getD unknownResult)) hp
    simpa [hr] using this
  · intro s hs i er
    rw [hset] at hs
    obtain ⟨p, -, hp⟩ := List.mem_map.mp hs
    rw [← hp]
    simp
  · rw [herr]
    rfl
  · rw [herr]
    rw [flushComplete_queue, (flushSplice_eq b).2.1]
  · rw [herr]

/-- C6 witness: a two-caller queue, a result map naming only the first URL,
and a failing executor on the other side. -/
theorem batcher_fanout_and_failure_witness :
    (({ queue := [⟨0, "a"⟩, ⟨1, "b"⟩], flushTimeout := some 50,
        config := defaultBatchConfig } : RequestBatcher).flushRun
      (Except.ok [("a", { known := true, data := some "d", confidence := some 1,
                          fallback := false })])).2.2 =
      [Settle.resolve 0 { known := true, data := some "d", confidence := some 1,
                          fallback := false },
       Settle.resolve 1 unknownResult] := by
  have h := (batcher_fanout_and_failure
    { queue := [⟨0, "a"⟩, ⟨1, "b"⟩], flushTimeout := some 50,
      config := defaultBatchConfig }
    [("a", { known := true, data := some "d", confidence := some 1,
             fallback := false })] "boom" (by decide) (by decide)).1
  rw [h]
  rfl

/-- C7: `clear()` empties the queue, cancels the pending timer, and settles
every still-queued caller by resolving it with `{known: false,
fallback: true}` — it never rejects and leaves no queued caller pending.
Called while a flush's executor call is outstanding (after the batch was
spliced off), it resolves exactly the still-queued callers immediately,
while the already-flushed batch's settlement is determined solely by the
batch and the executor's eventual outcome. -/
theorem batcher_clear_resolves_all (b : RequestBatcher)
    (resp : Except String (List (String × AIResult))) :
    (b.clear.1.queue = [] ∧ b.clear.1.flushTimeout = none) ∧
    (b.clear.2 = b.queue.map fun p => Settle.resolve p.id fallbackResult) ∧
    (∀ p ∈ b.queue, Settle.resolve p.id fallbackResult ∈ b.clear.2) ∧
    (∀ s ∈ b.clear.2, ∀ (i : Nat) (er : String), s ≠ Settle.reject i er) ∧
    (b.flushSplice.1.clear.2 =
      (b.queue.drop b.config.maxSize).map fun p =>
        Settle.resolve p.id fallbackResult) ∧
    (flushSettle b.flushSplice.2 resp
      = flushSettle (b.queue.take b.config.maxSize) resp) := by
  refine ⟨⟨rfl, rfl⟩, rfl, ?_, ?_, ?_, ?_⟩
  · intro p hp
    exact List.mem_map_of_mem (fun q => Settle.resolve q.id fallbackResult) hp
  · intro s hs i er
    obtain ⟨p, -, hp⟩ := List.mem_map.mp hs
    rw [← hp]
    simp
  · show (b.flushSplice.1.queue.map fun p => Settle.resolve p.id fallbackResult) = _
    rw [(flushSplice_eq b).2.1]
  · rw [(flushSplice_eq b).1]

/-- C7 witness: a one-caller queue with an armed timer, cleared while an
executor call for an earlier batch is outstanding. -/
theorem batcher_clear_resolves_all_witness :
    (({ queue := [⟨4, "u"⟩], flushTimeout := some 50,
        config := defaultBatchConfig } : RequestBatcher).clear.2 =
      [Settle.resolve 4 fallbackResult]) ∧
    Settle.resolve 4 fallbackResult ∈
      ({ queue := [⟨4, "u"⟩], flushTimeout := some 50,
         config := defaultBatchConfig } : RequestBatcher).clear.2 := by
  constructor
  · exact (batcher_clear_resolves_all
      { queue := [⟨4, "u"⟩], flushTimeout := some 50,
        config := defaultBatchConfig } (Except.error "boom")).2.1
  · exact (batcher_clear_resolves_all
      { queue := [⟨4, "u"⟩], flushTimeout := some 50,
        config := defaultBatchConfig } (Except.error "boom")).2.2.1
      ⟨4, "u"⟩ (by simp)

/-- C8: containment at the client boundary.  `query` returns the fallback
result without touching the batcher when the circuit is open, swallows any
batcher rejection into the fallback result, and passes a resolution through;
`learn` returns the rejected outcome without calling the backend when
learning is disabled or the circuit is open, records a circuit success and
returns the response on backend success, and records a circuit failure and
returns the rejected outcome on backend failure.  Both are total functions:
neither ever throws. -/
theorem client_query_learn_containment (cb : CircuitBreaker) (now : Nat)
    (r : AIResult) (e : String) (resp : LearnResponse) :
    ((cb.isOpen now).1 = true →
      (∀ out : Except String AIResult,
        FetchBrainClient.query cb now out = (fallbackResult, (cb.isOpen now).2, false)) ∧
      (∀ backend : Except String LearnResponse,
        FetchBrainClient.learn true cb now backend
          = (rejectedLearn, (cb.isOpen now).2, false))) ∧
    ((cb.isOpen now).1 = false →
      FetchBrainClient.query cb now (Except.ok r) = (r, (cb.isOpen now).2, true) ∧
      FetchBrainClient.query cb now (Except.error e)
        = (fallbackResult, (cb.isOpen now).2, true) ∧
      FetchBrainClient.learn true cb now (Except.ok resp)
        = (resp, (cb.isOpen now).2.recordSuccess, true) ∧
      FetchBrainClient.learn true cb now (Except.error e)
        = (rejectedLearn, (cb.isOpen now).2.recordFailure now, true)) ∧
    (∀ backend : Except String LearnResponse,
      FetchBrainClient.learn false cb now backend = (rejectedLearn, cb, false)) := by
  refine ⟨?_, ?_, ?_⟩
  · intro hopen
    constructor
    · intro out
      unfold FetchBrainClient.query
      simp [hopen]
    · intro backend
      unfold FetchBrainClient.learn
      simp [hopen]
  · intro hclosed
    refine ⟨?_, ?_, ?_, ?_⟩
    · unfold FetchBrainClient.query
      simp [hclosed]
    · unfold FetchBrainClient.query
      simp [hclosed]
    · unfold FetchBrainClient.learn
      simp [hclosed]
    · unfold FetchBrainClient.learn
      simp [hclosed]
  · intro backend
    unfold FetchBrainClient.learn
    simp

/-- C8 witness: an open breaker's query returns the fallback without touching
the batcher; a closed breaker's learn on backend failure records the failure
and returns the rejected outcome. -/
theorem client_query_learn_containment_witness :
    (FetchBrainClient.query sampleOpenBreaker 5 (Except.error "down")
      = (fallbackResult, sampleOpenBreaker, false)) ∧
    (FetchBrainClient.learn true (mkCircuitBreaker defaultCircuitConfig) 5
        (Except.error "down")
      = (rejectedLearn,
         (mkCircuitBreaker defaultCircuitConfig).recordFailure 5, true)) := by
  constructor
  · exact (client_query_learn_containment sampleOpenBreaker 5 unknownResult
      "down" rejectedLearn).1 (by decide) |>.1 (Except.error "down")
  · exact ((client_query_learn_containment (mkCircuitBreaker defaultCircuitConfig)
      5 unknownResult "down" rejectedLearn).2.1 (by decide)).2.2.2

example :
    (wrappedHandler ⟨AlwaysRunCfg.undef, true⟩ ⟨"u", none, true⟩
      { known := true, data := some "d", confidence := some 1, fallback := false }
      [HandlerAction.pushContext "x"]).2 = [Effect.sink "d"] := by decide

example :
    (wrappedHandler ⟨AlwaysRunCfg.flag true, true⟩ ⟨"u", none, true⟩
      { known := false, data := none, confidence := none, fallback := false }
      [HandlerAction.pushContext "x"]).2
      = [Effect.learn "u" "x", Effect.sink "x"] := by decide

example :
    (wrappedHandler ⟨AlwaysRunCfg.flag true, true⟩ ⟨"u", none, true⟩
      { known := true, data := some "d", confidence := some 1, fallback := false }
      [HandlerAction.useAIData, HandlerAction.pushContext "x",
       HandlerAction.pushStandalone ["y", "z"]]).2
      = [Effect.sink "d", Effect.sink "x", Effect.datasetPush ["y", "z"]] := by
  decide

lemma stepAction_no_learn_when_known (cfg : WrapperConfig) (req : RequestInfo)
    (aiResult : AIResult) (hknown : aiResult.known = true)
    (used : Bool) (a : HandlerAction) :
    ∀ eff ∈ (stepAction cfg req aiResult used a).2,
      ∀ (u d : String), eff ≠ Effect.learn u d := by
  intro eff heff u d
  cases a with
  | useAIData =>
      revert heff
      unfold stepAction
      cases aiResult.data with
      | some dd =>
          split_ifs <;> intro heff <;> simp at heff <;> simp [heff]
      | none => intro heff; simp at heff
  | pushContext dd =>
      revert heff
      unfold stepAction
      simp only [hknown, Bool.not_true, Bool.and_false]
      split_ifs <;> intro heff <;> simp_all
  | pushStandalone items =>
      revert heff
      unfold stepAction
      simp only [hknown, Bool.not_true, Bool.and_false, Bool.false_eq_true,
        if_false]
      intro heff
      simp at heff
      simp [heff]

lemma runHandlerActions_no_learn (cfg : WrapperConfig) (req : RequestInfo)
    (aiResult : AIResult) (hknown : aiResult.known = true)
    (actions : List HandlerAction) :
    ∀ used : Bool, ∀ eff ∈ runHandlerActions cfg req aiResult used actions,
      ∀ (u d : String), eff ≠ Effect.learn u d := by
  induction actions with
  | nil =>
      intro used eff heff
      simp [runHandlerActions] at heff
  | cons a rest ih =>
      intro used eff heff u d
      simp only [runHandlerActions, List.mem_append] at heff
      rcases heff with heff | heff
      · exact stepAction_no_learn_when_known cfg req aiResult hknown used a
          eff heff u d
      · exact ih _ eff heff u d

/-- C1: when the query result for a request is already known
(`aiResult.known = true`), no data pushed during that request's execution —
through the intercepted `context.pushData`, through the standalone
`pushData` wrapper reading the ambient scope, or after `useAIData()` — ever
produces a `client.learn` (teach) call, for every handler body and
configuration; the skip path likewise teaches nothing. -/
theorem wrapper_learning_suppressed_when_known
    (cfg : WrapperConfig) (req : RequestInfo) (aiResult : AIResult)
    (actions : List HandlerAction) (hknown : aiResult.known = true) :
    ∀ eff ∈ (wrappedHandler cfg req aiResult actions).2,
      ∀ (u d : String), eff ≠ Effect.learn u d := by
  intro eff heff u d
  revert heff
  unfold wrappedHandler
  cases hdata : aiResult.data with
  | some dd =>
      cases hb : aiResult.known && !(shouldRunHandler cfg.alwaysRun req.label) with
      | true =>
          simp only []
          split_ifs
          · intro heff
            simp at heff
            simp [heff]
          · intro heff
            simp at heff
      | false =>
          intro heff
          exact runHandlerActions_no_learn cfg req aiResult hknown actions
            false eff heff u d
  | none =>
      intro heff
      exact runHandlerActions_no_learn cfg req aiResult hknown actions
        false eff heff u d

/-- C1 witness: a known result, learning on, a handler that uses AI data and
then pushes through both sinks — no learn effect is emitted. -/
theorem wrapper_learning_suppressed_when_known_witness :
    Effect.learn "u" "x" ∉
      (wrappedHandler ⟨AlwaysRunCfg.flag true, true⟩ ⟨"u", none, true⟩
        { known := true, data := some "d", confidence := some 1,
          fallback := false }
        [HandlerAction.useAIData, HandlerAction.pushContext "x",
         HandlerAction.pushStandalone ["x"]]).2 := by
  intro hmem
  exact wrapper_learning_suppressed_when_known ⟨AlwaysRunCfg.flag true, true⟩
    ⟨"u", none, true⟩
    { known := true, data := some "d", confidence := some 1, fallback := false }
    [HandlerAction.useAIData, HandlerAction.pushContext "x",
     HandlerAction.pushStandalone ["x"]] rfl
    (Effect.learn "u" "x") hmem "u" "x" rfl

/-- C2: with `alwaysRun` unset or `false`, a request whose query result is
known (with data) and whose context has a native data sink is
short-circuited: the original handler body does not run, and the known data
reaches the data sink exactly once, pushed by the wrapper itself. -/
theorem wrapper_skip_path (cfg : WrapperConfig) (req : RequestInfo)
    (aiResult : AIResult) (d : String) (actions : List HandlerAction)
    (halways : cfg.alwaysRun = AlwaysRunCfg.flag false ∨
      cfg.alwaysRun = AlwaysRunCfg.undef)
    (hknown : aiResult.known = true) (hdata : aiResult.data = some d)
    (hpush : req.hasPushData = true) :
    (wrappedHandler cfg req aiResult actions).1 = false ∧
    (wrappedHandler cfg req aiResult actions).2 = [Effect.sink d] := by
  have hrun : shouldRunHandler cfg.alwaysRun req.label = false := by
    rcases halways with h | h <;> rw [h] <;> rfl
  unfold wrappedHandler
  rw [hdata, hknown, hrun]
  simp [hpush]

/-- C2 witness: `alwaysRun = false`, a known result with data, a handler
body that would have pushed twice — it never runs and the sink receives the
known data exactly once. -/
theorem wrapper_skip_path_witness :
    (wrappedHandler ⟨AlwaysRunCfg.flag false, true⟩ ⟨"u", some "detail", true⟩
      { known := true, data := some "d", confidence := some 1, fallback := false }
      [HandlerAction.pushContext "x", HandlerAction.pushContext "y"]).1 = false ∧
    (wrappedHandler ⟨AlwaysRunCfg.flag false, true⟩ ⟨"u", some "detail", true⟩
      { known := true, data := some "d", confidence := some 1, fallback := false }
      [HandlerAction.pushContext "x", HandlerAction.pushContext "y"]).2
      = [Effect.sink "d"] :=
  wrapper_skip_path ⟨AlwaysRunCfg.flag false, true⟩ ⟨"u", some "detail", true⟩
    { known := true, data := some "d", confidence := some 1, fallback := false }
    "d" [HandlerAction.pushContext "x", HandlerAction.pushContext "y"]
    (Or.inl rfl) rfl rfl rfl
